import Mathlib

/-!
# Stratified Random Sampler — verification of the specification

Shallow embedding of `src/stratifiedRandomSampler.py`, a script that reads a
CSV of acoustic-monitoring records, removes erroneous rows, coerces the
start-time column to timestamps, and, for every distinct device id, selects
one random record per hour of the day (0–23) provided every hour has at
least one eligible record (duration strictly above 60 seconds).

Tables are lists of rows; a missing (NaN/NaT) cell is `Option.none` or a
dedicated constructor.  Randomness is an explicit choice function; pandas
`DataFrame.sample()` on a nonempty frame is modelled as indexing by the
choice value modulo the frame length.
-/

namespace SRS

/-- A parsed timestamp value (the script only consumes the hour component,
via pandas `.dt.hour`, but the parse keeps the full field set). -/
structure Timestamp where
  year : Nat
  month : Nat
  day : Nat
  hour : Nat
  minute : Nat
  second : Nat
deriving DecidableEq, Repr

/-- The `StartDateTime` cell: either a raw (still unparsed) string, a parsed
timestamp, or the missing sentinel (pandas `NaT`) produced by
`pandas.to_datetime(..., errors='coerce')` on an unparseable value. -/
inductive TimeVal where
  | str (s : String)
  | ts (t : Timestamp)
  | missing
deriving DecidableEq, Repr

/-- One row of the table.  `device` is the `AudioMothCode` column (`none`
models a NaN cell), `err` is the nullable `Error` column (`none` = no
error), `duration` the numeric `Duration` column, `start` the
`StartDateTime` column; `payload` carries all other columns opaquely. -/
structure Row where
  device : Option String
  err : Option String
  duration : Int
  start : TimeVal
  payload : List String
deriving DecidableEq, Repr

/-- Split a character list at every occurrence of the separator. -/
def splitOnChar (c : Char) : List Char → List (List Char)
  | [] => [[]]
  | x :: xs =>
    let r := splitOnChar c xs
    if x == c then [] :: r
    else
      match r with
      | [] => [[x]]
      | y :: ys => (x :: y) :: ys

/-- Value of a decimal digit character, `none` for a non-digit. -/
def digitVal (c : Char) : Option Nat :=
  if 48 ≤ c.toNat ∧ c.toNat ≤ 57 then some (c.toNat - 48) else none

/-- Accumulating decimal parse of a digit string. -/
def parseNatAux : List Char → Nat → Option Nat
  | [], acc => some acc
  | c :: cs, acc =>
    match digitVal c with
    | some d => parseNatAux cs (acc * 10 + d)
    | none => none

/-- Decimal parse of a nonempty digit string. -/
def parseNatStr : List Char → Option Nat
  | [] => none
  | c :: cs => parseNatAux (c :: cs) 0

/-- Model of the external date parser (`pandas.to_datetime` on a single
cell): accepts `YYYY-MM-DD HH:MM:SS` with in-range fields, rejects anything
else. -/
def parseTimestamp (s : String) : Option Timestamp :=
  match splitOnChar ' ' s.toList with
  | [d, t] =>
    match splitOnChar '-' d, splitOnChar ':' t with
    | [y, mo, da], [h, mi, se] =>
      match parseNatStr y, parseNatStr mo, parseNatStr da,
          parseNatStr h, parseNatStr mi, parseNatStr se with
      | some yn, some mon, some dan, some hn, some mn, some sn =>
        if 1 ≤ mon ∧ mon ≤ 12 ∧ 1 ≤ dan ∧ dan ≤ 31 ∧ hn < 24 ∧ mn < 60 ∧ sn < 60 then
          some ⟨yn, mon, dan, hn, mn, sn⟩
        else none
      | _, _, _, _, _, _ => none
    | _, _ => none
  | _ => none

/-- `pandas.to_datetime(cell, errors='coerce')`: a string cell parses to a
timestamp or collapses to the missing sentinel; an already-coerced cell is
unchanged. -/
def parseVal : TimeVal → TimeVal
  | TimeVal.str s =>
    match parseTimestamp s with
    | some t => TimeVal.ts t
    | none => TimeVal.missing
  | TimeVal.ts t => TimeVal.ts t
  | TimeVal.missing => TimeVal.missing

/-- `.dt.hour` of a cell: only a parsed timestamp has an hour. -/
def hourOf : TimeVal → Option Nat
  | TimeVal.ts t => some t.hour
  | _ => none

/-- `remove_erroneous_rows` (line 24): keep the rows whose `Error` cell is
null. -/
def remove_erroneous_rows (t : List Row) : List Row :=
  t.filter (fun r => r.err.isNone)

/-- The timestamp-coercion step of `main` (line 106) applied to one row. -/
def coerceStart (r : Row) : Row :=
  { r with start := parseVal r.start }

/-- The Cleaner: `remove_erroneous_rows` followed by the `to_datetime`
coercion of the `StartDateTime` column (lines 100 and 106 of `main`). -/
def clean (t : List Row) : List Row :=
  (remove_erroneous_rows t).map coerceStart

/-- Pandas elementwise `==` between the `AudioMothCode` column and the
queried id: NaN compares unequal to everything, including NaN. -/
def deviceMatch (r : Row) (d : Option String) : Bool :=
  match r.device, d with
  | some a, some b => a == b
  | _, _ => false

/-- Lines 38-39: the device's rows, then those with `Duration > 60`. -/
def eligibleRows (t : List Row) (d : Option String) : List Row :=
  (t.filter (fun r => deviceMatch r d)).filter (fun r => decide (60 < r.duration))

/-- Line 43: the eligible rows whose start hour equals `h` (a missing start
never equals any hour). -/
def hourRows (elig : List Row) (h : Nat) : List Row :=
  elig.filter (fun r => hourOf r.start == some h)

/-- Failure of `pick_random_sample`: either the documented rejection after
the invalid-hour message naming the hour (the `(False, None)` return of
line 46), or the `TypeError` that line 45's message concatenation
`device_id + " did not have..."` raises when the queried device id is the
NaN missing value. -/
inductive PickErr where
  | invalidHour (h : Nat)
  | typeErr
deriving DecidableEq, Repr

/-- The per-hour loop of `pick_random_sample` (lines 42-48) over a list of
hours: at the first hour whose bucket is empty, print the invalid-hour
message — which raises for a missing device id — and abort; otherwise draw
the row at position `choose h % length` of the bucket and continue. -/
def pickFrom (elig : List Row) (d : Option String) (choose : Nat → Nat) :
    List Nat → Except PickErr (List Row)
  | [] => Except.ok []
  | h :: hs =>
    let dfh := hourRows elig h
    match dfh.get? (choose h % dfh.length) with
    | none =>
      match d with
      | some _ => Except.error (PickErr.invalidHour h)
      | none => Except.error PickErr.typeErr
    | some r =>
      match pickFrom elig d choose hs with
      | Except.error e => Except.error e
      | Except.ok rest => Except.ok (r :: rest)

/-- `pick_random_sample` (lines 32-51): `Except.ok s` models
`(True, this_samples)`, `Except.error (PickErr.invalidHour h)` models
`(False, None)` after the invalid-hour message for hour `h`. -/
def pick_random_sample (t : List Row) (d : Option String) (choose : Nat → Nat) :
    Except PickErr (List Row) :=
  pickFrom (eligibleRows t d) d choose (List.range 24)

/-- Whether the sampler accepted the device. -/
def isAccepted : Except PickErr (List Row) → Bool
  | Except.ok _ => true
  | Except.error _ => false

/-- First-occurrence deduplication helper, `seen` accumulating the ids
already emitted. -/
def uniqAux (seen : List (Option String)) : List (Option String) → List (Option String)
  | [] => []
  | x :: xs => if x ∈ seen then uniqAux seen xs else x :: uniqAux (x :: seen) xs

/-- `imported_data[AUDIOMOTH_ID_COL].unique().tolist()` (line 111): the
distinct device ids in first-occurrence order; a NaN cell is listed once
like any other value. -/
def uniqueList (l : List (Option String)) : List (Option String) :=
  uniqAux [] l

/-- The progress message of line 121, `"Attempting ... " + device`: string
concatenation with a NaN (missing) device raises `TypeError` in Python. -/
def progressMsg : Option String → Except String String
  | some d => Except.ok ("Attempting to sample from Device ID " ++ d ++ "...")
  | none => Except.error "TypeError: can only concatenate str (not \"float\") to str"

/-- The per-device loop of `main` (lines 120-128): build the progress
message (which raises on a missing id), run the sampler, append an accepted
sample to the output, skip a rejected device. -/
def runDevices (cleaned : List Row) (choose : Option String → Nat → Nat) :
    List (Option String) → Except String (List Row)
  | [] => Except.ok []
  | d :: ds =>
    match progressMsg d with
    | Except.error e => Except.error e
    | Except.ok _ =>
      match pick_random_sample cleaned d (choose d) with
      | Except.ok s => Except.map (fun rest => s ++ rest) (runDevices cleaned choose ds)
      | Except.error (PickErr.invalidHour _) => runDevices cleaned choose ds
      | Except.error PickErr.typeErr =>
        Except.error "TypeError: can only concatenate str (not \"float\") to str"

/-- The Orchestrator (lines 109-128): enumerate the distinct device ids of
the cleaned table and run the per-device loop. -/
def orchestrate (cleaned : List Row) (choose : Option String → Nat → Nat) :
    Except String (List Row) :=
  runDevices cleaned choose (uniqueList (cleaned.map Row.device))

/-- `get_file_to_open` (lines 55-64), with its stderr output: in argument
mode it demands `len(sys.argv) == 2` and returns `sys.argv[0]` (the script
path); otherwise it prompts.  `none` models returning Python `None`. -/
def get_file_to_open (useArgs : Bool) (argv : List String) (promptIn : String) :
    Option String × List String :=
  if useArgs then
    if argv.length = 2 then
      (argv.get? 0, [])
    else
      (none, ["Incorrect usage: ./stratifiedRandomSampler.py csvFilePathInput csvFileOutput"])
  else
    (some promptIn, [])

/-- `get_file_output_path` (lines 66-75): same argument-count check,
returns `sys.argv[1]`. -/
def get_file_output_path (useArgs : Bool) (argv : List String) (promptOut : String) :
    Option String × List String :=
  if useArgs then
    if argv.length = 2 then
      (argv.get? 1, [])
    else
      (none, ["Incorrect usage: ./stratifiedRandomSampler.py csvFilePath csvFileOutput"])
  else
    (some promptOut, [])

/-- The run environment of `main`: configuration flag, `sys.argv`, the two
interactive answers, the file system (CSV read and write, which may raise),
and the random source. -/
structure World where
  useArgs : Bool
  argv : List String
  promptIn : String
  promptOut : String
  readCSV : String → Except String (List Row)
  writeCSV : String → List Row → Except String Unit

/-- `main` (lines 79-143).  Result `Except.ok (b, log)` is the returned
boolean together with the stderr lines written; `Except.error e` is an
uncaught Python exception escaping `main`. -/
def mainRun (w : World) (choose : Option String → Nat → Nat) :
    Except String (Bool × List String) :=
  match get_file_to_open w.useArgs w.argv w.promptIn with
  | (none, log1) => Except.ok (false, log1)
  | (some inPath, log1) =>
    match get_file_output_path w.useArgs w.argv w.promptOut with
    | (none, log2) => Except.ok (false, log1 ++ log2)
    | (some outPath, log2) =>
      match w.readCSV inPath with
      | Except.error e =>
        Except.ok (false, log1 ++ log2 ++ ["Error when opening CSV File. See: " ++ e ++ "\n"])
      | Except.ok raw =>
        let cleaned := clean raw
        match orchestrate cleaned choose with
        | Except.error e => Except.error e
        | Except.ok out =>
          match w.writeCSV outPath out with
          | Except.error e =>
            Except.ok (false, log1 ++ log2 ++ ["Error when writing to CSV File. See: " ++ e ++ "\n"])
          | Except.ok _ => Except.ok (true, log1 ++ log2)

/-- The sample contributed by one device: the accepted 24 rows, or nothing
for a rejected device. -/
def acceptedRows (cleaned : List Row) (choose : Option String → Nat → Nat)
    (d : Option String) : Option (List Row) :=
  match pick_random_sample cleaned d (choose d) with
  | Except.ok s => some s
  | Except.error _ => none

/-- The input path `main` obtains (Python `None` becomes `none`). -/
def inPathOf (w : World) : Option String :=
  (get_file_to_open w.useArgs w.argv w.promptIn).1

/-- The output path `main` obtains. -/
def outPathOf (w : World) : Option String :=
  (get_file_output_path w.useArgs w.argv w.promptOut).1

/-! ## Concrete tables and environments used to exercise the theorems -/

/-- A record of device `"D1"`: 120-second duration, start at hour `h`. -/
def wRowA (h : Nat) : Row :=
  ⟨some "D1", none, 120, TimeVal.ts ⟨2021, 6, 1, h, 0, 0⟩, []⟩

/-- Full 24-hour coverage table for device `"D1"`. -/
def wTblA : List Row :=
  (List.range 24).map wRowA

/-- A table whose single record sits in hour 0: its device is rejected at
hour 1. -/
def wTblB : List Row :=
  [⟨some "D2", none, 90, TimeVal.ts ⟨2021, 6, 1, 0, 0, 0⟩, []⟩]

/-- A table whose single row has a missing (NaN) device id. -/
def wTblNull : List Row :=
  [⟨none, none, 120, TimeVal.ts ⟨2021, 6, 1, 0, 0, 0⟩, []⟩]

/-- An interactive-mode environment whose input CSV parses to `wTblNull`. -/
def wNullWorld : World :=
  { useArgs := false, argv := [], promptIn := "in.csv", promptOut := "out.csv",
    readCSV := fun _ => Except.ok wTblNull,
    writeCSV := fun _ _ => Except.ok () }

/-- An interactive-mode environment whose input CSV read raises `"boom"`. -/
def wReadFailWorld : World :=
  { useArgs := false, argv := [], promptIn := "in.csv", promptOut := "out.csv",
    readCSV := fun _ => Except.error "boom",
    writeCSV := fun _ _ => Except.ok () }

/-- Argument mode invoked, as the usage message documents, with an input
and an output file argument; any attempted file access would raise. -/
def wArgWorld : World :=
  { useArgs := true, argv := ["./stratifiedRandomSampler.py", "in.csv", "out.csv"],
    promptIn := "", promptOut := "",
    readCSV := fun _ => Except.error "io-should-not-happen",
    writeCSV := fun _ _ => Except.error "io-should-not-happen" }

/-- A record of device `"D1"` whose `StartDateTime` string does not parse. -/
def wRowBad : Row :=
  ⟨some "D1", none, 120, TimeVal.str "notadate", []⟩

/-- A table holding only the unparseable-start record. -/
def wTblC : List Row :=
  [wRowBad]

/-! ## Basic lemmas about the sampler's filters and per-hour loop -/

lemma deviceMatch_spec {r : Row} {d : Option String} (h : deviceMatch r d = true) :
    r.device = d ∧ ∃ q, d = some q := by
  rcases r with ⟨dev, e, du, st, pl⟩
  cases dev <;> cases d <;> simp_all [deviceMatch]

lemma mem_hourRows {elig : List Row} {h : Nat} {r : Row} (hr : r ∈ hourRows elig h) :
    r ∈ elig ∧ hourOf r.start = some h := by
  have hm := List.mem_filter.mp hr
  refine ⟨hm.1, ?_⟩
  simpa using hm.2

lemma mem_eligibleRows {t : List Row} {d : Option String} {r : Row}
    (hr : r ∈ eligibleRows t d) :
    r ∈ t ∧ deviceMatch r d = true ∧ 60 < r.duration := by
  have h2 := List.mem_filter.mp hr
  have h1 := List.mem_filter.mp h2.1
  exact ⟨h1.1, h1.2, by simpa using h2.2⟩

lemma get?_mod_eq_none_iff (l : List Row) (i : Nat) :
    l.get? (i % l.length) = none ↔ l = [] := by
  constructor
  · intro h
    by_contra hne
    have hlen : 0 < l.length := List.length_pos.mpr hne
    have hlt : i % l.length < l.length := Nat.mod_lt _ hlen
    rw [List.get?_eq_none] at h
    omega
  · intro h
    subst h
    simp

lemma pickFrom_ok_spec {elig : List Row} {d : Option String} {c : Nat → Nat} :
    ∀ {hs : List Nat} {s : List Row}, pickFrom elig d c hs = Except.ok s →
      s.length = hs.length ∧
      ∀ i, (hi : i < s.length) → (hi2 : i < hs.length) →
        s.get ⟨i, hi⟩ ∈ hourRows elig (hs.get ⟨i, hi2⟩) := by
  intro hs
  induction hs with
  | nil =>
    intro s hok
    simp only [pickFrom] at hok
    cases hok
    exact ⟨rfl, by intro i hi _; simp at hi⟩
  | cons h0 hs ih =>
    intro s hok
    simp only [pickFrom] at hok
    cases hg : (hourRows elig h0).get? (c h0 % (hourRows elig h0).length) with
    | none => rw [hg] at hok; cases d <;> cases hok
    | some r =>
      rw [hg] at hok
      cases hrec : pickFrom elig d c hs with
      | error e => rw [hrec] at hok; cases hok
      | ok rest =>
        rw [hrec] at hok
        cases hok
        obtain ⟨hlen, hmem⟩ := ih hrec
        constructor
        · simpa using hlen
        · intro i hi hi2
          cases i with
          | zero =>
            have : r ∈ hourRows elig h0 := List.get?_mem hg
            simpa using this
          | succ j =>
            have hj : j < rest.length := by simpa using hi
            have hj2 : j < hs.length := by simpa using hi2
            simpa using hmem j hj hj2

lemma pickFrom_error_spec {elig : List Row} {d : Option String} {c : Nat → Nat} :
    ∀ {hs : List Nat} {h : Nat},
      pickFrom elig d c hs = Except.error (PickErr.invalidHour h) →
      hourRows elig h = [] ∧
      ∃ i, ∃ hi : i < hs.length, hs.get ⟨i, hi⟩ = h ∧
        ∀ j, (hj : j < hs.length) → j < i → hourRows elig (hs.get ⟨j, hj⟩) ≠ [] := by
  intro hs
  induction hs with
  | nil => intro h hok; simp only [pickFrom] at hok; cases hok
  | cons h0 hs ih =>
    intro h hok
    simp only [pickFrom] at hok
    cases hg : (hourRows elig h0).get? (c h0 % (hourRows elig h0).length) with
    | none =>
      rw [hg] at hok
      have hemp : hourRows elig h0 = [] := (get?_mod_eq_none_iff _ _).mp hg
      cases d with
      | none => cases hok
      | some a =>
        cases hok
        exact ⟨hemp, 0, by simp, rfl, by intro j hj hj0; omega⟩
    | some r =>
      rw [hg] at hok
      cases hrec : pickFrom elig d c hs with
      | ok rest => rw [hrec] at hok; cases hok
      | error e =>
        rw [hrec] at hok
        cases hok
        obtain ⟨hemp, i, hi, heq, hpre⟩ := ih hrec
        have hne0 : hourRows elig h0 ≠ [] := by
          intro habs
          rw [(get?_mod_eq_none_iff _ _).mpr habs] at hg
          cases hg
        refine ⟨hemp, i + 1, by simpa using Nat.succ_lt_succ hi, by simpa using heq, ?_⟩
        intro j hj hj0
        cases j with
        | zero => simpa using hne0
        | succ k =>
          have hk : k < hs.length := by simpa using hj
          have : k < i := by omega
          simpa using hpre k hk this

lemma pickFrom_accept_iff (elig : List Row) (d : Option String) (c : Nat → Nat) :
    ∀ hs : List Nat,
      isAccepted (pickFrom elig d c hs) = hs.all (fun h => !(hourRows elig h).isEmpty) := by
  intro hs
  induction hs with
  | nil => simp [pickFrom, isAccepted]
  | cons h0 hs ih =>
    simp only [pickFrom]
    cases hg : (hourRows elig h0).get? (c h0 % (hourRows elig h0).length) with
    | none =>
      have hemp : hourRows elig h0 = [] := (get?_mod_eq_none_iff _ _).mp hg
      cases d <;> simp [isAccepted, hemp]
    | some r =>
      have hne0 : hourRows elig h0 ≠ [] := by
        intro habs
        rw [(get?_mod_eq_none_iff _ _).mpr habs] at hg
        cases hg
      have hne : (hourRows elig h0).isEmpty = false := by
        simpa [List.isEmpty_iff] using hne0
      cases hrec : pickFrom elig d c hs with
      | error e =>
        rw [hrec] at ih
        simp [isAccepted, hne, ← ih]
      | ok rest =>
        rw [hrec] at ih
        simp [isAccepted, hne, ← ih]

lemma pickFrom_some_ne_typeErr {elig : List Row} {a : String} {c : Nat → Nat} :
    ∀ hs : List Nat, pickFrom elig (some a) c hs ≠ Except.error PickErr.typeErr := by
  intro hs
  induction hs with
  | nil => intro h; cases h
  | cons h0 hs ih =>
    intro habs
    simp only [pickFrom] at habs
    cases hg : (hourRows elig h0).get? (c h0 % (hourRows elig h0).length) with
    | none => rw [hg] at habs; cases habs
    | some r =>
      rw [hg] at habs
      cases hrec : pickFrom elig (some a) c hs with
      | ok rest => rw [hrec] at habs; cases habs
      | error e =>
        rw [hrec] at habs
        cases habs
        exact ih hrec

/-! ## Claim theorems -/

/-- Claim C1: for every cleaned table and device id, if `pick_random_sample`
accepts the device then it returns exactly 24 records, the `i`-th lying in
hour `i` (ascending hour order 0–23), each an unmodified row of the table
with `duration > 60` and device id equal, as a string, to the queried
device. -/
theorem sampler_accepted_sample_spec (t : List Row) (d : Option String) (c : Nat → Nat)
    (s : List Row) (h : pick_random_sample t d c = Except.ok s) :
    s.length = 24 ∧ (∃ q, d = some q) ∧
    ∀ i, (hi : i < s.length) →
      s.get ⟨i, hi⟩ ∈ t ∧ 60 < (s.get ⟨i, hi⟩).duration ∧
      (s.get ⟨i, hi⟩).device = d ∧ hourOf (s.get ⟨i, hi⟩).start = some i := by
  obtain ⟨hlen, hmem⟩ := pickFrom_ok_spec h
  have hlen24 : s.length = 24 := by simpa using hlen
  have hprops : ∀ i, (hi : i < s.length) →
      s.get ⟨i, hi⟩ ∈ t ∧ 60 < (s.get ⟨i, hi⟩).duration ∧
      (s.get ⟨i, hi⟩).device = d ∧ hourOf (s.get ⟨i, hi⟩).start = some i := by
    intro i hi
    have hi2 : i < (List.range 24).length := by
      rw [List.length_range]
      omega
    have hhr := hmem i hi hi2
    simp only [List.get_eq_getElem, List.getElem_range] at hhr
    obtain ⟨helig, hhour⟩ := mem_hourRows hhr
    obtain ⟨hint, hdm, hdur⟩ := mem_eligibleRows helig
    exact ⟨hint, hdur, (deviceMatch_spec hdm).1, hhour⟩
  have h0 : 0 < s.length := by omega
  have hi2 : 0 < (List.range 24).length := by simp
  have hhr0 := hmem 0 h0 hi2
  simp only [List.get_eq_getElem, List.getElem_range] at hhr0
  obtain ⟨helig, _⟩ := mem_hourRows hhr0
  obtain ⟨_, hdm, _⟩ := mem_eligibleRows helig
  exact ⟨hlen24, (deviceMatch_spec hdm).2, hprops⟩

/-- C1 witness: the 24-hour table `wTblA` is accepted for device `"D1"`
with the zero choice function, and the theorem's conclusions hold there. -/
theorem sampler_accepted_sample_spec_witness :
    wTblA.length = 24 ∧ (∃ q, (some "D1" : Option String) = some q) ∧
    ∀ i, (hi : i < wTblA.length) →
      wTblA.get ⟨i, hi⟩ ∈ wTblA ∧ 60 < (wTblA.get ⟨i, hi⟩).duration ∧
      (wTblA.get ⟨i, hi⟩).device = some "D1" ∧
      hourOf (wTblA.get ⟨i, hi⟩).start = some i :=
  sampler_accepted_sample_spec wTblA (some "D1") (fun _ => 0) wTblA rfl

/-- Claim C2: `pick_random_sample` returns no sample exactly when some hour of
0–23 has no eligible record; the rejection return reports the first empty
hour and carries no rows at all, and a queried device with no eligible
rows whatsoever is rejected at hour 0. -/
theorem sampler_reject_spec (t : List Row) (d : Option String) (c : Nat → Nat) :
    (isAccepted (pick_random_sample t d c) = false ↔
      ∃ h, h < 24 ∧ hourRows (eligibleRows t d) h = []) ∧
    (∀ h, pick_random_sample t d c = Except.error (PickErr.invalidHour h) →
      h < 24 ∧ hourRows (eligibleRows t d) h = [] ∧
      (∀ h2, h2 < h → hourRows (eligibleRows t d) h2 ≠ []) ∧
      ∀ s, pick_random_sample t d c ≠ Except.ok s) ∧
    (∀ q, d = some q → eligibleRows t d = [] →
      pick_random_sample t d c = Except.error (PickErr.invalidHour 0)) := by
  have herr : ∀ h, pick_random_sample t d c = Except.error (PickErr.invalidHour h) →
      h < 24 ∧ hourRows (eligibleRows t d) h = [] ∧
      (∀ h2, h2 < h → hourRows (eligibleRows t d) h2 ≠ []) ∧
      ∀ s, pick_random_sample t d c ≠ Except.ok s := by
    intro h hrun
    obtain ⟨hemp, i, hi, heq, hpre⟩ := pickFrom_error_spec hrun
    have hival : (List.range 24).get ⟨i, hi⟩ = i := by
      simp only [List.get_eq_getElem, List.getElem_range]
    have hieq : i = h := by rw [hival] at heq; exact heq
    have hi24 : h < 24 := by
      have := hi
      rw [List.length_range] at this
      omega
    refine ⟨hi24, hemp, ?_, ?_⟩
    · intro h2 hlt
      have hj : h2 < (List.range 24).length := by
        rw [List.length_range]
        omega
      have := hpre h2 hj (by omega)
      simp only [List.get_eq_getElem, List.getElem_range] at this
      exact this
    · intro s hok
      rw [hrun] at hok
      cases hok
  refine ⟨⟨?_, ?_⟩, herr, ?_⟩
  · intro hfail
    rw [pick_random_sample, pickFrom_accept_iff, List.all_eq_false] at hfail
    obtain ⟨h, hmem, hval⟩ := hfail
    rw [List.mem_range] at hmem
    refine ⟨h, hmem, ?_⟩
    simpa using hval
  · rintro ⟨h, hi24, hemp⟩
    rw [pick_random_sample, pickFrom_accept_iff, List.all_eq_false]
    refine ⟨h, ?_, ?_⟩
    · rw [List.mem_range]
      exact hi24
    · simp [hemp]
  · intro q hq he
    subst hq
    have hfail : isAccepted (pick_random_sample t (some q) c) = false := by
      rw [pick_random_sample, pickFrom_accept_iff, List.all_eq_false]
      refine ⟨0, by simp, by simp [hourRows, he]⟩
    cases hrun : pick_random_sample t (some q) c with
    | ok s => rw [hrun, isAccepted] at hfail; cases hfail
    | error e =>
      cases e with
      | typeErr => exact absurd hrun (pickFrom_some_ne_typeErr _)
      | invalidHour h2 =>
        obtain ⟨_, _, hfirst, _⟩ := herr h2 hrun
        have h2z : h2 = 0 := by
          by_contra hnz
          exact hfirst 0 (by omega) (by simp [hourRows, he])
        rw [h2z]

/-- C2 witness: the single-record table `wTblB` (device `"D2"`, hour 0
only) is rejected, and the rejection facts of the theorem hold there with
rejection hour 1. -/
theorem sampler_reject_spec_witness :
    1 < 24 ∧ hourRows (eligibleRows wTblB (some "D2")) 1 = [] ∧
    (∀ h2, h2 < 1 → hourRows (eligibleRows wTblB (some "D2")) h2 ≠ []) ∧
    ∀ s, pick_random_sample wTblB (some "D2") (fun _ => 0) ≠ Except.ok s :=
  (sampler_reject_spec wTblB (some "D2") (fun _ => 0)).2.1 1 rfl

/-- Claim C6: for a fixed table, the accept/reject outcome of the sampler is the
same under any two random-choice functions — both for each device taken
alone and for the set of accepted devices among the table's distinct
device ids. -/
theorem sampler_outcome_deterministic (t : List Row)
    (c1 c2 : Option String → Nat → Nat) :
    (∀ d, isAccepted (pick_random_sample t d (c1 d)) =
      isAccepted (pick_random_sample t d (c2 d))) ∧
    (uniqueList (t.map Row.device)).filter
        (fun d => isAccepted (pick_random_sample t d (c1 d))) =
      (uniqueList (t.map Row.device)).filter
        (fun d => isAccepted (pick_random_sample t d (c2 d))) := by
  have hpt : ∀ d, isAccepted (pick_random_sample t d (c1 d)) =
      isAccepted (pick_random_sample t d (c2 d)) := by
    intro d
    rw [pick_random_sample, pick_random_sample, pickFrom_accept_iff, pickFrom_accept_iff]
  exact ⟨hpt, List.filter_congr (fun d _ => hpt d)⟩

/-! ## Lemmas about the Cleaner -/

lemma coerceStart_err (r : Row) : (coerceStart r).err = r.err := rfl

lemma parseVal_idem (v : TimeVal) : parseVal (parseVal v) = parseVal v := by
  cases v with
  | str s => cases hp : parseTimestamp s <;> simp [parseVal, hp]
  | ts t => rfl
  | missing => rfl

lemma coerceStart_idem (r : Row) : coerceStart (coerceStart r) = coerceStart r := by
  simp [coerceStart, parseVal_idem]

/-- Claim C3: the Cleaner's row-removal step returns exactly the rows whose error
field is null, keeps them unchanged and in order (sublist), never keeps a
row with a non-null error, and shrinks the table, with equal length exactly
when no row carried an error. -/
theorem cleaner_spec (t : List Row) :
    (∀ r ∈ remove_erroneous_rows t, r.err = none ∧ r ∈ t) ∧
    (∀ r ∈ t, r.err = none → r ∈ remove_erroneous_rows t) ∧
    (remove_erroneous_rows t).Sublist t ∧
    (remove_erroneous_rows t).length ≤ t.length ∧
    ((remove_erroneous_rows t).length = t.length ↔ ∀ r ∈ t, r.err = none) := by
  refine ⟨?_, ?_, ?_, ?_, ?_⟩
  · intro r hr
    have hm := List.mem_filter.mp hr
    exact ⟨by simpa [Option.isNone_iff_eq_none] using hm.2, hm.1⟩
  · intro r hr he
    exact List.mem_filter.mpr ⟨hr, by simp [he]⟩
  · exact List.filter_sublist t
  · exact List.length_filter_le _ t
  · constructor
    · intro hlen r hr
      have heq : remove_erroneous_rows t = t :=
        (List.filter_sublist t).eq_of_length hlen
      have : r ∈ remove_erroneous_rows t := by rw [heq]; exact hr
      have hm := List.mem_filter.mp this
      simpa [Option.isNone_iff_eq_none] using hm.2
    · intro hall
      have heq : remove_erroneous_rows t = t := by
        rw [remove_erroneous_rows]
        apply List.filter_eq_self.mpr
        intro r hr
        simp [hall r hr]
      rw [heq]

/-- Claim C9: the Cleaner (error-row removal followed by timestamp coercion) is
idempotent: applied to its own output it is the identity. -/
theorem cleaner_idempotent (t : List Row) : clean (clean t) = clean t := by
  unfold clean remove_erroneous_rows
  rw [List.filter_map]
  have hcomp : ((fun r : Row => r.err.isNone) ∘ coerceStart) =
      (fun r : Row => r.err.isNone) := by
    funext r
    simp [Function.comp, coerceStart_err]
  rw [hcomp, List.filter_filter, List.map_map]
  have hmap : (coerceStart ∘ coerceStart) = coerceStart := by
    funext r
    simp [Function.comp, coerceStart_idem]
  rw [hmap]
  congr 1
  apply List.filter_congr
  intro a _
  simp

/-- Claim C5: a surviving row whose start string does not parse is retained by the
Cleaner with the missing sentinel in place of its start value, belongs to no
hour bucket of any device, and is never part of an accepted sample. -/
theorem unparseable_start_spec (t : List Row) (r : Row) (s : String)
    (hr : r ∈ t) (he : r.err = none) (hs : r.start = TimeVal.str s)
    (hp : parseTimestamp s = none) :
    { r with start := TimeVal.missing } ∈ clean t ∧
    (∀ d h, { r with start := TimeVal.missing } ∉ hourRows (eligibleRows (clean t) d) h) ∧
    (∀ d c out, pick_random_sample (clean t) d c = Except.ok out →
      { r with start := TimeVal.missing } ∉ out) := by
  have hnohour : ∀ d h, { r with start := TimeVal.missing } ∉
      hourRows (eligibleRows (clean t) d) h := by
    intro d h hmem
    have := (mem_hourRows hmem).2
    simp [hourOf] at this
  refine ⟨?_, hnohour, ?_⟩
  · rw [clean]
    have hf : r ∈ remove_erroneous_rows t :=
      List.mem_filter.mpr ⟨hr, by simp [he]⟩
    have : coerceStart r = { r with start := TimeVal.missing } := by
      rw [coerceStart, hs]
      simp [parseVal, hp]
    exact this ▸ List.mem_map_of_mem coerceStart hf
  · intro d c out hok hmem
    obtain ⟨hlen, hget⟩ := pickFrom_ok_spec hok
    obtain ⟨i, hval⟩ := List.mem_iff_get.mp hmem
    have hi2 : i.val < (List.range 24).length := by
      have hl := hlen
      rw [List.length_range] at hl ⊢
      have := i.isLt
      omega
    have := hget i.val i.isLt hi2
    rw [hval] at this
    simp only [List.get_eq_getElem, List.getElem_range] at this
    exact hnohour d i.val this

/-- C5 witness: the concrete record with start string `"notadate"` is
retained by the Cleaner with a missing start, sits in no hour bucket and in
no accepted sample. -/
theorem unparseable_start_spec_witness :
    { wRowBad with start := TimeVal.missing } ∈ clean wTblC ∧
    (∀ d h, { wRowBad with start := TimeVal.missing } ∉
      hourRows (eligibleRows (clean wTblC) d) h) ∧
    (∀ d c out, pick_random_sample (clean wTblC) d c = Except.ok out →
      { wRowBad with start := TimeVal.missing } ∉ out) :=
  unparseable_start_spec wTblC wRowBad "notadate" (by simp [wTblC]) rfl rfl rfl

/-! ## Lemmas about device enumeration and the per-device loop -/

lemma uniqAux_mem (x : Option String) :
    ∀ (l seen : List (Option String)),
      x ∈ uniqAux seen l ↔ x ∈ l ∧ x ∉ seen := by
  intro l
  induction l with
  | nil => intro seen; simp [uniqAux]
  | cons y ys ih =>
    intro seen
    by_cases hy : y ∈ seen
    · rw [uniqAux, if_pos hy, ih]
      constructor
      · rintro ⟨hx, hs⟩
        exact ⟨List.mem_cons_of_mem _ hx, hs⟩
      · rintro ⟨hx, hs⟩
        rcases List.mem_cons.mp hx with hxy | hx2
        · exact absurd (hxy ▸ hy) hs
        · exact ⟨hx2, hs⟩
    · rw [uniqAux, if_neg hy]
      constructor
      · intro hx
        rcases List.mem_cons.mp hx with hxy | hx2
        · exact ⟨hxy ▸ List.mem_cons_self y ys, hxy ▸ hy⟩
        · obtain ⟨hin, hns⟩ := (ih (y :: seen)).mp hx2
          exact ⟨List.mem_cons_of_mem _ hin,
            fun hs => hns (List.mem_cons_of_mem _ hs)⟩
      · rintro ⟨hx, hs⟩
        rcases List.mem_cons.mp hx with hxy | hx2
        · exact hxy ▸ List.mem_cons_self y _
        · by_cases hxy2 : x = y
          · exact hxy2 ▸ List.mem_cons_self y _
          · refine List.mem_cons_of_mem _ ((ih (y :: seen)).mpr ⟨hx2, ?_⟩)
            intro habs
            rcases List.mem_cons.mp habs with h1 | h2
            · exact hxy2 h1
            · exact hs h2

lemma uniqAux_nodup :
    ∀ (l seen : List (Option String)), (uniqAux seen l).Nodup := by
  intro l
  induction l with
  | nil => intro seen; simp [uniqAux]
  | cons y ys ih =>
    intro seen
    by_cases hy : y ∈ seen
    · rw [uniqAux, if_pos hy]
      exact ih seen
    · rw [uniqAux, if_neg hy]
      refine List.nodup_cons.mpr ⟨?_, ih (y :: seen)⟩
      intro habs
      exact ((uniqAux_mem y ys (y :: seen)).mp habs).2 (List.mem_cons_self y seen)

lemma uniqueList_mem (x : Option String) (l : List (Option String)) :
    x ∈ uniqueList l ↔ x ∈ l := by
  rw [uniqueList, uniqAux_mem]
  simp

lemma uniqueList_nodup (l : List (Option String)) : (uniqueList l).Nodup :=
  uniqAux_nodup l []

lemma mem_of_accepted {t : List Row} {d : Option String} {c : Nat → Nat}
    {out : List Row} (hok : pick_random_sample t d c = Except.ok out) :
    ∀ r ∈ out, r ∈ t := by
  intro r hmem
  obtain ⟨hlen, hget⟩ := pickFrom_ok_spec hok
  obtain ⟨i, hval⟩ := List.mem_iff_get.mp hmem
  have hi2 : i.val < (List.range 24).length := by
    have hl := hlen
    rw [List.length_range] at hl ⊢
    have := i.isLt
    omega
  have hhr := hget i.val i.isLt hi2
  rw [hval] at hhr
  exact ((mem_eligibleRows (mem_hourRows hhr).1).1)

lemma accepted_length_24 {t : List Row} {d : Option String} {c : Nat → Nat}
    {out : List Row} (hok : pick_random_sample t d c = Except.ok out) :
    out.length = 24 := by
  obtain ⟨hlen, _⟩ := pickFrom_ok_spec hok
  simpa using hlen

lemma runDevices_ok (cleaned : List Row) (choose : Option String → Nat → Nat) :
    ∀ ds : List (Option String), (∀ d ∈ ds, d.isSome = true) →
      runDevices cleaned choose ds =
        Except.ok ((ds.filterMap (acceptedRows cleaned choose)).flatten) := by
  intro ds
  induction ds with
  | nil => intro _; simp [runDevices]
  | cons d ds ih =>
    intro hall
    have hd : d.isSome = true := hall d (List.mem_cons_self d ds)
    obtain ⟨a, ha⟩ := Option.isSome_iff_exists.mp hd
    have hrest := ih (fun x hx => hall x (List.mem_cons_of_mem d hx))
    rw [runDevices, ha, progressMsg]
    cases hp : pick_random_sample cleaned (some a) (choose (some a)) with
    | ok s =>
      rw [hrest]
      simp [List.filterMap_cons, acceptedRows, ha, hp, Except.map]
    | error e =>
      cases e with
      | invalidHour h =>
        rw [hrest]
        simp [List.filterMap_cons, acceptedRows, ha, hp]
      | typeErr => exact absurd hp (pickFrom_some_ne_typeErr _)

lemma filterMap_join_length (cleaned : List Row) (choose : Option String → Nat → Nat) :
    ∀ ds : List (Option String),
      ((ds.filterMap (acceptedRows cleaned choose)).flatten).length =
        24 * (ds.filter
          (fun d => isAccepted (pick_random_sample cleaned d (choose d)))).length := by
  intro ds
  induction ds with
  | nil => simp
  | cons d ds ih =>
    cases hp : pick_random_sample cleaned d (choose d) with
    | ok s =>
      have h24 : s.length = 24 := accepted_length_24 hp
      have hacc : isAccepted (pick_random_sample cleaned d (choose d)) = true := by
        rw [hp]
        rfl
      have har : acceptedRows cleaned choose d = some s := by
        simp only [acceptedRows, hp]
      simp only [List.filterMap_cons, har, List.filter_cons, hacc, if_true,
        List.flatten_cons, List.length_append, h24, List.length_cons, ih,
        Nat.mul_succ]
      omega
    | error h =>
      have hacc : isAccepted (pick_random_sample cleaned d (choose d)) = false := by
        rw [hp]
        rfl
      have har : acceptedRows cleaned choose d = none := by
        simp only [acceptedRows, hp]
      simp only [List.filterMap_cons, har, List.filter_cons, hacc,
        Bool.false_eq_true, if_false, ih]

/-- Claim C4 counterexample: on a cleaned table holding a row with a missing
(NaN) device id the orchestrator raises a `TypeError` while building the
progress message, so no final output table exists at all — refuting the
claim's universally quantified output-table properties. -/
theorem orchestrator_claim_counterexample :
    orchestrate wTblNull (fun _ _ => 0) =
      Except.error "TypeError: can only concatenate str (not \"float\") to str" ∧
    ¬ ∃ out, orchestrate wTblNull (fun _ _ => 0) = Except.ok out := by
  refine ⟨rfl, ?_⟩
  rintro ⟨out, h⟩
  rw [show orchestrate wTblNull (fun _ _ => 0) =
    Except.error "TypeError: can only concatenate str (not \"float\") to str" from rfl] at h
  cases h

/-- Claim C4 (amended): for every cleaned table all of whose rows carry a present
device id, the orchestrator enumerates each distinct device id exactly once
(duplicates collapsed), produces an output table whose rows all come from
the cleaned table, formed by appending each accepted device's sample in
processing order, with row count 24 times the number of accepted devices;
each device's contribution depends only on the cleaned table and that
device, so one device's rejection cannot affect another's acceptance. -/
theorem orchestrator_spec (cleaned : List Row) (choose : Option String → Nat → Nat)
    (hdev : ∀ r ∈ cleaned, (Row.device r).isSome = true) :
    ∃ out, orchestrate cleaned choose = Except.ok out ∧
      (uniqueList (cleaned.map Row.device)).Nodup ∧
      (∀ d, d ∈ uniqueList (cleaned.map Row.device) ↔ ∃ r ∈ cleaned, r.device = d) ∧
      out = ((uniqueList (cleaned.map Row.device)).filterMap
        (acceptedRows cleaned choose)).flatten ∧
      out.length = 24 * ((uniqueList (cleaned.map Row.device)).filter
        (fun d => isAccepted (pick_random_sample cleaned d (choose d)))).length ∧
      ∀ r ∈ out, r ∈ cleaned := by
  have hmemiff : ∀ d, d ∈ uniqueList (cleaned.map Row.device) ↔
      ∃ r ∈ cleaned, r.device = d := by
    intro d
    rw [uniqueList_mem, List.mem_map]
  have hallsome : ∀ d ∈ uniqueList (cleaned.map Row.device), d.isSome = true := by
    intro d hd
    obtain ⟨r, hr, hrd⟩ := (hmemiff d).mp hd
    exact hrd ▸ hdev r hr
  have hrun := runDevices_ok cleaned choose _ hallsome
  refine ⟨_, hrun, uniqueList_nodup _, hmemiff, rfl, filterMap_join_length cleaned choose _, ?_⟩
  intro r hr
  rw [List.mem_flatten] at hr
  obtain ⟨s, hs, hrs⟩ := hr
  rw [List.mem_filterMap] at hs
  obtain ⟨d, _, hacc⟩ := hs
  rw [acceptedRows] at hacc
  cases hp : pick_random_sample cleaned d (choose d) with
  | ok s2 =>
    rw [hp] at hacc
    cases hacc
    exact mem_of_accepted hp r hrs
  | error h => rw [hp] at hacc; cases hacc

/-- Claim C4 witness: on the one-device table `wTblB` (device `"D2"`, rejected)
the orchestrator completes with an empty output table of length `24 * 0`. -/
theorem orchestrator_spec_witness :
    ∃ out, orchestrate wTblB (fun _ _ => 0) = Except.ok out ∧
      (uniqueList (wTblB.map Row.device)).Nodup ∧
      (∀ d, d ∈ uniqueList (wTblB.map Row.device) ↔ ∃ r ∈ wTblB, r.device = d) ∧
      out = ((uniqueList (wTblB.map Row.device)).filterMap
        (acceptedRows wTblB (fun _ _ => 0))).flatten ∧
      out.length = 24 * ((uniqueList (wTblB.map Row.device)).filter
        (fun d => isAccepted (pick_random_sample wTblB d (fun _ => 0)))).length ∧
      ∀ r ∈ out, r ∈ wTblB :=
  orchestrator_spec wTblB (fun _ _ => 0) (by simp [wTblB])

/-- Claim C10: a cleaned table can contain a row with a missing device id; the
device loop then enumerates the missing value, and `main` raises a
`TypeError` while concatenating the progress message, returning neither
`True` nor `False`. -/
theorem main_null_device_crash :
    (none : Option String) ∈ uniqueList ((clean wTblNull).map Row.device) ∧
    mainRun wNullWorld (fun _ _ => 0) =
      Except.error "TypeError: can only concatenate str (not \"float\") to str" ∧
    ∀ b log, mainRun wNullWorld (fun _ _ => 0) ≠ Except.ok (b, log) := by
  refine ⟨by decide, rfl, ?_⟩
  intro b log h
  rw [show mainRun wNullWorld (fun _ _ => 0) =
    Except.error "TypeError: can only concatenate str (not \"float\") to str" from rfl] at h
  cases h

/-- Claim C8 (code behavior at the claimed contract): invoked as the usage
message documents — script name plus an input and an output file argument —
both path functions report a usage error and `main` aborts with `False`
before any file access; in the argument count the code does accept (one
user argument), the "input" path returned is `sys.argv[0]`, the script
path, and the output path is the sole user argument. -/
theorem cli_argument_indexing_bug :
    get_file_to_open true ["./stratifiedRandomSampler.py", "in.csv", "out.csv"] "" =
      (none, ["Incorrect usage: ./stratifiedRandomSampler.py csvFilePathInput csvFileOutput"]) ∧
    get_file_output_path true ["./stratifiedRandomSampler.py", "in.csv", "out.csv"] "" =
      (none, ["Incorrect usage: ./stratifiedRandomSampler.py csvFilePath csvFileOutput"]) ∧
    mainRun wArgWorld (fun _ _ => 0) =
      Except.ok (false,
        ["Incorrect usage: ./stratifiedRandomSampler.py csvFilePathInput csvFileOutput"]) ∧
    get_file_to_open true ["./stratifiedRandomSampler.py", "out.csv"] "" =
      (some "./stratifiedRandomSampler.py", []) ∧
    get_file_output_path true ["./stratifiedRandomSampler.py", "out.csv"] "" =
      (some "out.csv", []) :=
  ⟨rfl, rfl, rfl, rfl, rfl⟩

/-- Claim C7: whenever `main` returns a boolean, it returns `False` exactly when
path acquisition failed, the CSV read raised, or the CSV write raised; each
of the two I/O failures is caught at its boundary, reported on stderr with
the underlying cause, and ends the run with `False`; with paths and I/O all
succeeding — whatever parse failures or device rejections the data causes —
`main` returns `True`. -/
theorem main_failure_spec (w : World) (choose : Option String → Nat → Nat) :
    (∀ b log, mainRun w choose = Except.ok (b, log) →
      (b = false ↔
        inPathOf w = none ∨ outPathOf w = none ∨
        (∃ p e, inPathOf w = some p ∧ w.readCSV p = Except.error e) ∨
        (∃ p q raw out e, inPathOf w = some p ∧ outPathOf w = some q ∧
          w.readCSV p = Except.ok raw ∧
          orchestrate (clean raw) choose = Except.ok out ∧
          w.writeCSV q out = Except.error e))) ∧
    (∀ p q e, inPathOf w = some p → outPathOf w = some q →
      w.readCSV p = Except.error e →
      mainRun w choose = Except.ok (false,
        (get_file_to_open w.useArgs w.argv w.promptIn).2 ++
        (get_file_output_path w.useArgs w.argv w.promptOut).2 ++
        ["Error when opening CSV File. See: " ++ e ++ "\n"])) ∧
    (∀ p q raw out e, inPathOf w = some p → outPathOf w = some q →
      w.readCSV p = Except.ok raw →
      orchestrate (clean raw) choose = Except.ok out →
      w.writeCSV q out = Except.error e →
      mainRun w choose = Except.ok (false,
        (get_file_to_open w.useArgs w.argv w.promptIn).2 ++
        (get_file_output_path w.useArgs w.argv w.promptOut).2 ++
        ["Error when writing to CSV File. See: " ++ e ++ "\n"])) ∧
    (∀ p q raw out, inPathOf w = some p → outPathOf w = some q →
      w.readCSV p = Except.ok raw →
      orchestrate (clean raw) choose = Except.ok out →
      w.writeCSV q out = Except.ok () →
      mainRun w choose = Except.ok (true,
        (get_file_to_open w.useArgs w.argv w.promptIn).2 ++
        (get_file_output_path w.useArgs w.argv w.promptOut).2)) ∧
    (inPathOf w = none → ∃ log, mainRun w choose = Except.ok (false, log)) := by
  rcases hgi : get_file_to_open w.useArgs w.argv w.promptIn with ⟨ip, log1⟩
  have hip : inPathOf w = ip := by rw [inPathOf, hgi]
  rcases hgo : get_file_output_path w.useArgs w.argv w.promptOut with ⟨op, log2⟩
  have hop : outPathOf w = op := by rw [outPathOf, hgo]
  cases ip with
  | none =>
    have hm : mainRun w choose = Except.ok (false, log1) := by
      rw [mainRun, hgi]
    refine ⟨?_, ?_, ?_, ?_, fun _ => ⟨log1, hm⟩⟩
    · intro b log h
      rw [hm] at h
      have hb : b = false := by
        cases h
        rfl
      subst hb
      exact Iff.intro (fun _ => Or.inl hip) (fun _ => rfl)
    · intro p q e h1 _ _
      rw [hip] at h1
      cases h1
    · intro p q raw out e h1 _ _ _ _
      rw [hip] at h1
      cases h1
    · intro p q raw out h1 _ _ _ _
      rw [hip] at h1
      cases h1
  | some p0 =>
    cases op with
    | none =>
      have hm : mainRun w choose = Except.ok (false, log1 ++ log2) := by
        rw [mainRun, hgi, hgo]
      refine ⟨?_, ?_, ?_, ?_, ?_⟩
      · intro b log h
        rw [hm] at h
        have hb : b = false := by
          cases h
          rfl
        subst hb
        exact Iff.intro (fun _ => Or.inr (Or.inl hop)) (fun _ => rfl)
      · intro p q e _ h2 _
        rw [hop] at h2
        cases h2
      · intro p q raw out e _ h2 _ _ _
        rw [hop] at h2
        cases h2
      · intro p q raw out _ h2 _ _ _
        rw [hop] at h2
        cases h2
      · intro h1
        rw [hip] at h1
        cases h1
    | some q0 =>
      cases hr : w.readCSV p0 with
      | error e0 =>
        have hm : mainRun w choose = Except.ok (false,
            log1 ++ log2 ++ ["Error when opening CSV File. See: " ++ e0 ++ "\n"]) := by
          simp only [mainRun, hgi, hgo, hr]
        refine ⟨?_, ?_, ?_, ?_, ?_⟩
        · intro b log h
          rw [hm] at h
          have hb : b = false := by
            cases h
            rfl
          subst hb
          exact Iff.intro (fun _ => Or.inr (Or.inr (Or.inl ⟨p0, e0, hip, hr⟩)))
            (fun _ => rfl)
        · intro p q e h1 h2 h3
          rw [hip] at h1
          cases h1
          rw [hr] at h3
          cases h3
          exact hm
        · intro p q raw out e h1 _ h3 _ _
          rw [hip] at h1
          cases h1
          rw [hr] at h3
          cases h3
        · intro p q raw out h1 _ h3 _ _
          rw [hip] at h1
          cases h1
          rw [hr] at h3
          cases h3
        · intro h1
          rw [hip] at h1
          cases h1
      | ok raw0 =>
        cases horch : orchestrate (clean raw0) choose with
        | error e1 =>
          have hm : mainRun w choose = Except.error e1 := by
            simp only [mainRun, hgi, hgo, hr, horch]
          refine ⟨?_, ?_, ?_, ?_, ?_⟩
          · intro b log h
            rw [hm] at h
            cases h
          · intro p q e h1 _ h3
            rw [hip] at h1
            cases h1
            rw [hr] at h3
            cases h3
          · intro p q raw out e h1 _ h3 h4 _
            rw [hip] at h1
            cases h1
            rw [hr] at h3
            cases h3
            rw [horch] at h4
            cases h4
          · intro p q raw out h1 _ h3 h4 _
            rw [hip] at h1
            cases h1
            rw [hr] at h3
            cases h3
            rw [horch] at h4
            cases h4
          · intro h1
            rw [hip] at h1
            cases h1
        | ok out0 =>
          cases hw : w.writeCSV q0 out0 with
          | error e2 =>
            have hm : mainRun w choose = Except.ok (false,
                log1 ++ log2 ++ ["Error when writing to CSV File. See: " ++ e2 ++ "\n"]) := by
              simp only [mainRun, hgi, hgo, hr, horch, hw]
            refine ⟨?_, ?_, ?_, ?_, ?_⟩
            · intro b log h
              rw [hm] at h
              have hb : b = false := by
                cases h
                rfl
              subst hb
              exact Iff.intro (fun _ => Or.inr (Or.inr (Or.inr ⟨p0, q0, raw0, out0, e2,
                hip, hop, hr, horch, hw⟩))) (fun _ => rfl)
            · intro p q e h1 _ h3
              rw [hip] at h1
              cases h1
              rw [hr] at h3
              cases h3
            · intro p q raw out e h1 h2 h3 h4 h5
              rw [hip] at h1
              cases h1
              rw [hop] at h2
              cases h2
              rw [hr] at h3
              cases h3
              rw [horch] at h4
              cases h4
              rw [hw] at h5
              cases h5
              exact hm
            · intro p q raw out h1 h2 h3 h4 h5
              rw [hip] at h1
              cases h1
              rw [hop] at h2
              cases h2
              rw [hr] at h3
              cases h3
              rw [horch] at h4
              cases h4
              rw [hw] at h5
              cases h5
            · intro h1
              rw [hip] at h1
              cases h1
          | ok u =>
            have hm : mainRun w choose = Except.ok (true, log1 ++ log2) := by
              simp only [mainRun, hgi, hgo, hr, horch, hw]
            refine ⟨?_, ?_, ?_, ?_, ?_⟩
            · intro b log h
              rw [hm] at h
              have hb : b = true := by
                cases h
                rfl
              subst hb
              constructor
              · intro hb
                cases hb
              · rintro (h1 | h2 | ⟨p, e, h1, h3⟩ | ⟨p, q, raw, out, e, h1, h2, h3, h4, h5⟩)
                · rw [hip] at h1
                  cases h1
                · rw [hop] at h2
                  cases h2
                · rw [hip] at h1
                  cases h1
                  rw [hr] at h3
                  cases h3
                · rw [hip] at h1
                  cases h1
                  rw [hop] at h2
                  cases h2
                  rw [hr] at h3
                  cases h3
                  rw [horch] at h4
                  cases h4
                  rw [hw] at h5
                  cases h5
            · intro p q e h1 _ h3
              rw [hip] at h1
              cases h1
              rw [hr] at h3
              cases h3
            · intro p q raw out e h1 h2 h3 h4 h5
              rw [hip] at h1
              cases h1
              rw [hop] at h2
              cases h2
              rw [hr] at h3
              cases h3
              rw [horch] at h4
              cases h4
              rw [hw] at h5
              cases h5
            · intro p q raw out h1 h2 h3 h4 h5
              rw [hip] at h1
              cases h1
              rw [hop] at h2
              cases h2
              exact hm
            · intro h1
              rw [hip] at h1
              cases h1

/-- C7 witness: in a concrete environment whose CSV read raises `"boom"`,
`main` returns `False` with the opening-error message carrying the cause. -/
theorem main_failure_spec_witness :
    mainRun wReadFailWorld (fun _ _ => 0) =
      Except.ok (false, ["Error when opening CSV File. See: boom\n"]) :=
  (main_failure_spec wReadFailWorld (fun _ _ => 0)).2.1
    "in.csv" "out.csv" "boom" rfl rfl rfl

end SRS
